import Mathlib

/-!
# libcvd `cvd/Linux/dvbuffer.h`: the typed Firewire video buffer

A shallow embedding of `CVD::DC::cam_type`, `CVD::DC::raw_frame`,
`CVD::DC::RawDCVideo` and `CVD::DVBuffer2<T>`.

* The template `cam_type` and the whole class template `DVBuffer2` are defined
  in the header and are embedded from it line by line.
* `RawDCVideo` is only *declared* in the header (its member functions are
  compiled from a translation unit that is not part of the sources at hand).
  The adapter `DVBuffer2` is therefore embedded over arbitrary implementations
  of the base-class member functions it calls; a reference implementation of
  the base class, written from the design document, is given separately and is
  marked as such.
-/

namespace CVD

/-! ## Values -/

/-- The value of a C++ `double`: a finite number, one of the two infinities, or
a NaN.  Only the values are modelled, not the rounding of arithmetic; the code
under study stores, forwards and compares doubles and never computes with them. -/
inductive Double
  | finite (q : ℚ)
  | pos_inf
  | neg_inf
  | nan
  deriving DecidableEq

instance (n : Nat) : OfNat Double n := ⟨Double.finite n⟩

/-- The comparison `a < b` of two doubles (false as soon as one side is a NaN). -/
def Double.lt : Double → Double → Bool
  | .finite a, .finite b => decide (a < b)
  | .finite _, .pos_inf => true
  | .neg_inf, .finite _ => true
  | .neg_inf, .pos_inf => true
  | _, _ => false

/-- The C++ types that occur as pixel type arguments.  `byte`, `yuv411` and
`Rgb<...>` are the ones the header names; `other` stands for any further type. -/
inductive CType
  | byte
  | yuv411
  | Rgb (c : CType)
  | other (id : Nat)
  deriving DecidableEq

/-- A `CVD::ImageRef`: a pair of `int` coordinates. -/
structure ImageRef where
  x : Int
  y : Int
  deriving DecidableEq

/-! ## Constants of libdc1394 (`<libdc1394/dc1394_control.h>`)

The header includes libdc1394 1.x and uses three enumerators of its anonymous
"camera modes for Format_0" enumeration, which starts at 64:
`MODE_160x120_YUV444 = 64, MODE_320x240_YUV422, MODE_640x480_YUV411,
MODE_640x480_YUV422, MODE_640x480_RGB, MODE_640x480_MONO, MODE_640x480_MONO16`. -/

/-- Enumerator of libdc1394 (third of the Format_0 modes). -/
def MODE_640x480_YUV411 : Int := 66

/-- Enumerator of libdc1394 (fifth of the Format_0 modes). -/
def MODE_640x480_RGB : Int := 68

/-- Enumerator of libdc1394 (sixth of the Format_0 modes). -/
def MODE_640x480_MONO : Int := 69

/-! ## `DC::cam_type<C, LIFT>` -/

namespace DC

/-- The member `cam_type<C,LIFT>::mode`.  The three partial specialisations give a
capture mode; the primary template initialises `mode` with
`C::Error__type_not_valid_for_camera___Use_byte_or_yuv411_or_rgb_of_byte`, which
does not compile, so no value exists (`none`). -/
def cam_type.mode (C : CType) (_LIFT : Int) : Option Int :=
  match C with
  | .yuv411 => some MODE_640x480_YUV411
  | .byte => some MODE_640x480_MONO
  | .Rgb .byte => some MODE_640x480_RGB
  | _ => none

/-- The member `cam_type<C,LIFT>::fps`: each of the four definitions
(`primary`, `yuv411`, `byte`, `Rgb<byte>`) reads `=30`. -/
def cam_type.fps (C : CType) (_LIFT : Int) : Double :=
  match C with
  | .yuv411 => 30
  | .byte => 30
  | .Rgb .byte => 30
  | _ => 30

/-- The struct `DC::raw_frame`: `unsigned char* data; double timestamp; int buffer;`
(the pointer is its address, the buffer number a natural number). -/
structure raw_frame where
  data : Nat
  timestamp : Double
  buffer : Nat
  deriving DecidableEq

end DC

/-! ## The constructor of `DVBuffer2<T>` -/

/-- The record of one call `RawDCVideo(camera_no, num_dma_buffers, bright,
exposure, mode, frame_rate)`: the six arguments in declaration order. -/
structure RawDCVideoCall where
  camera_no : Int
  num_dma_buffers : Int
  bright : Int
  exposure : Int
  mode : Int
  frame_rate : Double
  deriving DecidableEq

/-- The ways of calling `DVBuffer2(int cam_no, int num_dma_buffers, int bright=-1,
int exposure=-1, double fps=DC::cam_type<T>::fps)`: trailing arguments may be
left out. -/
inductive DVBuffer2Args
  | args2 (cam_no num_dma_buffers : Int)
  | args3 (cam_no num_dma_buffers bright : Int)
  | args4 (cam_no num_dma_buffers bright exposure : Int)
  | args5 (cam_no num_dma_buffers bright exposure : Int) (fps : Double)
  deriving DecidableEq

/-- The constructor with all five arguments present: its member initialiser is
`RawDCVideo(cam_no, num_dma_buffers, bright, exposure, DC::cam_type<T>::mode, fps)`
and its body is empty.  `none` when `DVBuffer2<T>` does not compile. -/
def DVBuffer2.ctor5 (T : CType) (cam_no num_dma_buffers bright exposure : Int)
    (fps : Double) : Option RawDCVideoCall :=
  match DC.cam_type.mode T 0 with
  | some mode => some ⟨cam_no, num_dma_buffers, bright, exposure, mode, fps⟩
  | none => none

/-- The constructor call with the default arguments filled in. -/
def DVBuffer2.ctor (T : CType) : DVBuffer2Args → Option RawDCVideoCall
  | .args2 c n => DVBuffer2.ctor5 T c n (-1) (-1) (DC.cam_type.fps T 0)
  | .args3 c n b => DVBuffer2.ctor5 T c n b (-1) (DC.cam_type.fps T 0)
  | .args4 c n b e => DVBuffer2.ctor5 T c n b e (DC.cam_type.fps T 0)
  | .args5 c n b e fps => DVBuffer2.ctor5 T c n b e fps

/-- The constructor of `DVBuffer`, which is `typedef DVBuffer2<byte> DVBuffer;`. -/
def DVBuffer.ctor : DVBuffer2Args → Option RawDCVideoCall :=
  DVBuffer2.ctor CType.byte


/-! ## Member function calls and frame pointers -/

/-- A call of a member function on an object whose state has type `σ`: `none`
when the call never returns (it blocks for ever), otherwise the value returned
or the exception thrown, together with the state the call leaves behind. -/
abbrev Call (ε σ α : Type) : Type := σ → Option (Except ε α × σ)

/-- A pointer `VideoFrame<T>*` to a frame object of a video buffer.  The frame
object is identified by the buffer object that made it (`session`) and the
frame record it holds (`frame`: pixel data pointer, timestamp, DMA buffer
number); `T` is the static pixel type of the pointee and nothing else. -/
structure VideoFramePtr (T : CType) where
  session : Nat
  frame : DC.raw_frame
  deriving DecidableEq

/-- The cast `reinterpret_cast<VideoFrame<U>*>(p)`: the same pointer at another
static type. -/
def reinterpret_cast {T : CType} (U : CType) (p : VideoFramePtr T) : VideoFramePtr U :=
  ⟨p.session, p.frame⟩

/-! ## `DVBuffer2<T>`: the member functions

`DVBuffer2<T>` derives from `DC::RawDCVideo`; each member function below takes
the base-class member function it calls as its argument. -/

/-- The member `double frame_rate() { return RawDCVideo::frame_rate(); }`. -/
def DVBuffer2.frame_rate {ε σ : Type} (_T : CType) (RawDCVideo_frame_rate : Call ε σ Double) :
    Call ε σ Double :=
  fun s => RawDCVideo_frame_rate s

/-- The member `virtual ImageRef size() { return RawDCVideo::size(); }`. -/
def DVBuffer2.size {ε σ : Type} (_T : CType) (RawDCVideo_size : Call ε σ ImageRef) :
    Call ε σ ImageRef :=
  fun s => RawDCVideo_size s

/-- The member `virtual VideoFrame<T>* get_frame()`, which returns
`reinterpret_cast<VideoFrame<T>*>(RawDCVideo::get_frame())`. -/
def DVBuffer2.get_frame {ε σ : Type} (T : CType)
    (RawDCVideo_get_frame : Call ε σ (VideoFramePtr .byte)) : Call ε σ (VideoFramePtr T) :=
  fun s =>
    match RawDCVideo_get_frame s with
    | none => none
    | some (.error e, s') => some (.error e, s')
    | some (.ok f, s') => some (.ok (reinterpret_cast T f), s')

/-- The member `virtual void put_frame(VideoFrame<T>* f)`, whose body is
`RawDCVideo::put_frame(reinterpret_cast<VideoFrame<byte>*>(f));`. -/
def DVBuffer2.put_frame {ε σ : Type} (T : CType)
    (RawDCVideo_put_frame : VideoFramePtr .byte → Call ε σ Unit) (f : VideoFramePtr T) :
    Call ε σ Unit :=
  fun s => RawDCVideo_put_frame (reinterpret_cast .byte f) s

/-- The member `virtual bool frame_pending() { return RawDCVideo::frame_pending(); }`. -/
def DVBuffer2.frame_pending {ε σ : Type} (_T : CType) (RawDCVideo_frame_pending : Call ε σ Bool) :
    Call ε σ Bool :=
  fun s => RawDCVideo_frame_pending s

/-- The member `virtual void seek_to(double t){}`. -/
def DVBuffer2.seek_to {ε σ : Type} (_T : CType) (_t : Double) : Call ε σ Unit :=
  fun s => some (.ok (), s)

/-! ## `DC::RawDCVideo`: what the header declares -/

/-- The private data members of `DC::RawDCVideo`, in the order of declaration.
Pointers (`my_ring_buffer`, `my_handle`, `my_camera_nodes`) are addresses,
`nodeid_t` is a number, and the `int`s that count or index DMA buffers and frames
are natural numbers. -/
structure RawDCVideo where
  my_channel : Int
  my_ring_buffer : Nat
  my_frame_size : Nat
  my_num_buffers : Nat
  my_fd : Int
  my_handle : Nat
  my_camera_nodes : Nat
  my_node : Nat
  my_size : ImageRef
  my_frame_sequence : List Nat
  my_next_frame : Nat
  my_last_in_sequence : Nat
  true_fps : Double
  deriving DecidableEq

/-! ## `DC::RawDCVideo`: a reference implementation

The member functions of `RawDCVideo` and the DMA engine that fills the ring
buffer are not in the header.  The definitions of this section follow the
design document (its sections 3, 4.1, 5 and 7). -/

/-- Modelled from the spec: the error taxonomy of section 7 (the exceptions
thrown by the members of `RawDCVideo`, which the header does not declare). -/
inductive Error
  | DeviceError
  | ControlError
  | UsageError
  deriving DecidableEq

/-- Modelled from the spec: the capture session of section 3, which is the
`RawDCVideo` object together with what the header has no member for: the
identity of the session, the capture slots (each a data pointer borrowed from the
ring buffer, a capture timestamp and a slot index), the set of checked-out slots,
and the timestamp of the most recent completed DMA fill. -/
structure CaptureSession where
  video : RawDCVideo
  self : Nat
  slots : List DC.raw_frame
  checked_out : List Nat
  last_capture : Option Double
  deriving DecidableEq

/-- Modelled from the spec: what opening the device and negotiating the mode
yields (section 4.1, Construct; the `RawDCVideo` constructor is not in the
header): the bus handle, the node, the channel, the DMA mapping, the frame size
and the true frame rate. -/
structure Negotiated where
  handle : Nat
  node : Nat
  camera_nodes : Nat
  channel : Int
  fd : Int
  ring_buffer : Nat
  frame_size : Nat
  size : ImageRef
  true_fps : Double

/-- Modelled from the spec: the constructor of `RawDCVideo` (section 4.1,
Construct), whose definition is not in the header.  `device` is the hardware's
answer to the request; when it refuses, the constructor fails with `DeviceError`;
otherwise the session owns `num_dma_buffers` slots, nothing has been captured and
nothing is checked out. -/
def RawDCVideo.ctor (self : Nat) (device : RawDCVideoCall → Option Negotiated)
    (call : RawDCVideoCall) : Except Error CaptureSession :=
  match device call with
  | none => .error .DeviceError
  | some d =>
    .ok
      { video :=
          { my_channel := d.channel
            my_ring_buffer := d.ring_buffer
            my_frame_size := d.frame_size
            my_num_buffers := call.num_dma_buffers.toNat
            my_fd := d.fd
            my_handle := d.handle
            my_camera_nodes := d.camera_nodes
            my_node := d.node
            my_size := d.size
            my_frame_sequence := []
            my_next_frame := 0
            my_last_in_sequence := 0
            true_fps := d.true_fps }
        self := self
        slots := (List.range call.num_dma_buffers.toNat).map
          (fun i => ⟨d.ring_buffer + i * d.frame_size, 0, i⟩)
        checked_out := []
        last_capture := none }

/-- Modelled from the spec: `RawDCVideo::size()` (section 4.1: the fixed
dimensions negotiated at construction; pure). -/
def RawDCVideo.size : Call Error CaptureSession ImageRef :=
  fun s => some (.ok s.video.my_size, s)

/-- Modelled from the spec: `RawDCVideo::frame_rate()` (section 4.1: the true
negotiated rate, returned, not recomputed). -/
def RawDCVideo.frame_rate : Call Error CaptureSession Double :=
  fun s => some (.ok s.video.true_fps, s)

/-- Modelled from the spec: `RawDCVideo::frame_pending()` (section 4.1: true iff
the sequence tracker has an entry not yet handed out; never blocks, never
mutates). -/
def RawDCVideo.frame_pending : Call Error CaptureSession Bool :=
  fun s => some (.ok (decide (s.video.my_next_frame < s.video.my_frame_sequence.length)), s)

/-- Modelled from the spec: `RawDCVideo::get_frame()` (section 4.1).  With no
completed slot in the tracker the caller stays blocked (`none`: the call has not
returned).  Otherwise the oldest entry not yet handed out is taken, its slot is
marked as checked out, and the handle returned carries the slot's data pointer and
timestamp. -/
def RawDCVideo.get_frame : Call Error CaptureSession (VideoFramePtr .byte) :=
  fun s =>
    match s.video.my_frame_sequence[s.video.my_next_frame]? with
    | none => none
    | some b =>
      match s.slots[b]? with
      | none => none
      | some fr =>
        some (.ok ⟨s.self, fr⟩,
          { s with
            video := { s.video with my_next_frame := s.video.my_next_frame + 1 }
            checked_out := b :: s.checked_out })

/-- Modelled from the spec: whether a handle corresponds to a currently
checked-out slot of this session (section 4.1, put_frame): it was made by this
session, its slot is in the checked-out set, and it carries what that slot holds
now. -/
def RawDCVideo.is_checked_out (s : CaptureSession) (f : VideoFramePtr .byte) : Bool :=
  decide (f.session = s.self) && decide (f.frame.buffer ∈ s.checked_out)
    && decide (s.slots[f.frame.buffer]? = some f.frame)

/-- Modelled from the spec: whether the frame at position `p` of the sequence has
been handed out and not been returned to the hardware: its slot is checked out
and was not handed out again at a later position. -/
def RawDCVideo.unreturned (v : RawDCVideo) (out : List Nat) (p : Nat) : Bool :=
  match v.my_frame_sequence[p]? with
  | none => false
  | some b =>
    decide (b ∈ out) && !(((v.my_frame_sequence.take v.my_next_frame).drop (p + 1)).contains b)

/-- Modelled from the spec: the cursor "oldest frame not yet returned to
hardware" of the sequence tracker (section 3), for the checked-out set `out`. -/
def RawDCVideo.oldest_unreturned (v : RawDCVideo) (out : List Nat) : Nat :=
  ((List.range v.my_next_frame).find? (RawDCVideo.unreturned v out)).getD v.my_next_frame

/-- Modelled from the spec: `RawDCVideo::put_frame(f)` (section 4.1).  A handle
that does not correspond to a currently checked-out slot of this session is
refused with `UsageError`; otherwise the slot is removed from the checked-out
set, which returns it to the DMA engine. -/
def RawDCVideo.put_frame (f : VideoFramePtr .byte) : Call Error CaptureSession Unit :=
  fun s =>
    if RawDCVideo.is_checked_out s f then
      let out := s.checked_out.filter (fun b => b != f.frame.buffer)
      some (.ok (),
        { s with
          video := { s.video with my_last_in_sequence := RawDCVideo.oldest_unreturned s.video out }
          checked_out := out })
    else
      some (.error .UsageError, s)

/-- Modelled from the spec: `RawDCVideo::handle()`, whose body is not in the
header (section 4.1: a read-only accessor returning the bus handle established at
construction; no mutation permitted through this interface).  The header declares
the result type as `raw1394handle_t&`; the result here is the bus handle read
through it. -/
def RawDCVideo.handle : Call Error CaptureSession Nat :=
  fun s => some (.ok s.video.my_handle, s)

/-- Modelled from the spec: `RawDCVideo::node()`, whose body is not in the header
(section 4.1: a read-only accessor returning the node identifier established at
construction; no mutation permitted through this interface).  The header declares
the result type as `nodeid_t&`; the result here is the node identifier read
through it. -/
def RawDCVideo.node : Call Error CaptureSession Nat :=
  fun s => some (.ok s.video.my_node, s)

/-- Modelled from the spec: one completed DMA fill (sections 3 and 5).  The
engine fills only a slot that exists and that it owns, that is, one that is
neither checked out nor waiting in the tracker; the capture timestamp is later
than that of the previous fill; the slot index is appended to the frame
sequence.  `none` when the hardware cannot do this fill. -/
def dma_fill (slot : Nat) (ts : Double) (s : CaptureSession) :
    Option (DC.raw_frame × CaptureSession) :=
  match s.slots[slot]? with
  | none => none
  | some fr =>
    if slot ∈ s.checked_out ∨ slot ∈ s.video.my_frame_sequence.drop s.video.my_next_frame then
      none
    else if (match s.last_capture with
        | none => true
        | some c => c.lt ts) then
      some ({ fr with timestamp := ts },
        { s with
          video := { s.video with my_frame_sequence := s.video.my_frame_sequence ++ [slot] }
          slots := s.slots.set slot { fr with timestamp := ts }
          last_capture := some ts })
    else
      none

/-! ## Executions of a session -/

/-- What happens to a session: the hardware completes a fill, or a call of
`get_frame` or `put_frame` returns. -/
inductive Event
  | dma_fill (slot : Nat) (ts : Double)
  | get_frame
  | put_frame (f : VideoFramePtr .byte)
  deriving DecidableEq

/-- A session together with the record of its past: the frames captured, in
capture order; the handles `get_frame` has returned, in the order of the calls;
and the handles returned and not released since. -/
structure History where
  session : CaptureSession
  captured : List (VideoFramePtr .byte)
  delivered : List (VideoFramePtr .byte)
  held : List (VideoFramePtr .byte)
  deriving DecidableEq

/-- The history of a session that has just been constructed. -/
def History.start (s : CaptureSession) : History :=
  ⟨s, [], [], []⟩

/-- One event.  `none` when the event cannot be the next one: the hardware cannot
do the fill, or `get_frame` is still blocked.  A `put_frame` that throws leaves
the record as it is. -/
def History.step (h : History) : Event → Option History
  | .dma_fill slot ts =>
    match dma_fill slot ts h.session with
    | none => none
    | some (fr, s') => some { h with session := s', captured := h.captured ++ [⟨s'.self, fr⟩] }
  | .get_frame =>
    match RawDCVideo.get_frame h.session with
    | some (.ok f, s') =>
      some { h with session := s', delivered := h.delivered ++ [f], held := f :: h.held }
    | _ => none
  | .put_frame f =>
    match RawDCVideo.put_frame f h.session with
    | some (.ok _, s') => some { h with session := s', held := h.held.filter (fun g => g != f) }
    | some (.error _, s') => some { h with session := s' }
    | none => none

/-- The slot and the timestamp of a fill; `none` for a call. -/
def Event.fill? : Event → Option (Nat × Double)
  | .dma_fill slot ts => some (slot, ts)
  | _ => none

/-- A sequence of events, from left to right. -/
def History.run (h : History) : List Event → Option History
  | [] => some h
  | e :: es =>
    match h.step e with
    | none => none
    | some h' => h'.run es

/-- A use of the session by a collaborator: an event of the capture machinery, or
a call of `handle()` or of `node()`. -/
inductive Access
  | event (e : Event)
  | handle
  | node
  deriving DecidableEq

/-- A session with its record, and the values that the calls of `handle()` and of
`node()` have returned so far, in the order of the calls. -/
structure Observed where
  history : History
  handles : List Nat
  nodes : List Nat
  deriving DecidableEq

/-- A freshly constructed session on which no accessor has been called. -/
def Observed.start (s : CaptureSession) : Observed :=
  ⟨History.start s, [], []⟩

/-- One use.  A call of an accessor continues with the session the call leaves
behind and records the value returned. -/
def Observed.step (o : Observed) : Access → Option Observed
  | .event e =>
    match o.history.step e with
    | none => none
    | some h' => some { o with history := h' }
  | .handle =>
    match RawDCVideo.handle o.history.session with
    | some (.ok v, s') =>
      some { o with history := { o.history with session := s' }, handles := o.handles ++ [v] }
    | _ => none
  | .node =>
    match RawDCVideo.node o.history.session with
    | some (.ok v, s') =>
      some { o with history := { o.history with session := s' }, nodes := o.nodes ++ [v] }
    | _ => none

/-- A sequence of uses, from left to right. -/
def Observed.run (o : Observed) : List Access → Option Observed
  | [] => some o
  | a :: as =>
    match o.step a with
    | none => none
    | some o' => o'.run as

/-- The frames waiting in the tracker, oldest first: the entries of the frame
sequence from `my_next_frame` on, each as the handle `get_frame` would make of
it. -/
def CaptureSession.pending (s : CaptureSession) : List (VideoFramePtr .byte) :=
  (s.video.my_frame_sequence.drop s.video.my_next_frame).filterMap
    (fun b => (s.slots[b]?).map (fun fr => ⟨s.self, fr⟩))

/-- What holds of a session and its record after every execution that starts at
a freshly constructed session. -/
structure History.Inv (h : History) : Prop where
  next_le : h.session.video.my_next_frame ≤ h.session.video.my_frame_sequence.length
  next_eq : h.session.video.my_next_frame = h.delivered.length
  queue : h.captured = h.delivered ++ h.session.pending
  seq_eq : h.captured.map (fun f => f.frame.buffer) = h.session.video.my_frame_sequence
  slot_index : ∀ (i : Nat) (fr : DC.raw_frame), h.session.slots[i]? = some fr → fr.buffer = i
  increasing :
    h.captured.Pairwise (fun a b => a.frame.timestamp.lt b.frame.timestamp = true)
  clock : ∀ f ∈ h.captured, ∃ c, h.session.last_capture = some c ∧
    (f.frame.timestamp = c ∨ f.frame.timestamp.lt c = true)
  held_iff : ∀ f, f ∈ h.held ↔ RawDCVideo.is_checked_out h.session f = true

/-! ## A concrete session, for the examples -/

/-- A camera that grants every request at the rate asked for: bus handle 7,
node 3, a ring buffer at address 1000 with frames of 100 bytes. -/
def Example.device : RawDCVideoCall → Option Negotiated :=
  fun c => some ⟨7, 3, 0, 1, 5, 1000, 100, ⟨640, 480⟩, c.frame_rate⟩

/-- The session number 1 made by `DVBuffer(0, 3)` on that camera: three DMA
buffers, mode `MODE_640x480_MONO`, 30 frames per second. -/
def Example.session : CaptureSession :=
  { video := ⟨1, 1000, 100, 3, 5, 7, 0, 3, ⟨640, 480⟩, [], 0, 0, 30⟩
    self := 1
    slots := [⟨1000, 0, 0⟩, ⟨1100, 0, 1⟩, ⟨1200, 0, 2⟩]
    checked_out := []
    last_capture := none }

/-- The first frame captured in `Example.trace`: slot 2, timestamp 1. -/
def Example.first_frame : VideoFramePtr .byte :=
  ⟨1, ⟨1200, 1, 2⟩⟩

/-- Fills in the physical order 2, 0, 1, 2 with two frames delivered, the first
released (which lets the hardware fill slot 2 again), two more delivered, and the
first handle released a second time. -/
def Example.trace : List Event :=
  [.dma_fill 2 1, .dma_fill 0 2, .get_frame, .dma_fill 1 3, .get_frame,
   .put_frame Example.first_frame, .dma_fill 2 4, .get_frame, .get_frame,
   .put_frame Example.first_frame]

/-- The session and its record after `Example.trace`. -/
def Example.final : History :=
  ((History.start Example.session).run Example.trace).getD (History.start Example.session)

end CVD

/-! # Theorems -/

namespace CVD

/-! ## The pixel type table -/

/-- C1 (the code at the failing input): for `Rgb<byte>` the code's default frame
rate `cam_type<Rgb<byte>,LIFT>::fps` is 30 for every `LIFT`, it is not 15, and a
`DVBuffer2<Rgb<byte> >` constructed without an explicit `fps` passes 30 to the
`RawDCVideo` constructor. -/
theorem cam_type_Rgb_byte_fps_is_30 (LIFT cam_no num_dma_buffers : Int) :
    DC.cam_type.fps (.Rgb .byte) LIFT = 30 ∧
    DC.cam_type.fps (.Rgb .byte) LIFT ≠ 15 ∧
    DVBuffer2.ctor (.Rgb .byte) (.args2 cam_no num_dma_buffers) =
      some ⟨cam_no, num_dma_buffers, -1, -1, MODE_640x480_RGB, 30⟩ :=
  ⟨rfl, by show (30 : Double) ≠ 15; decide, rfl⟩

/-- C3: `cam_type<byte>::mode` is `MODE_640x480_MONO`, `cam_type<yuv411>::mode` is
`MODE_640x480_YUV411` and `cam_type<Rgb<byte> >::mode` is `MODE_640x480_RGB`; the
three modes are pairwise distinct; the mode does not depend on `LIFT`; a pixel
type has at most one mode, and two pixel types with the same mode are the same
type. -/
theorem cam_type_mode_injective :
    (∀ LIFT : Int,
      DC.cam_type.mode .byte LIFT = some MODE_640x480_MONO ∧
      DC.cam_type.mode .yuv411 LIFT = some MODE_640x480_YUV411 ∧
      DC.cam_type.mode (.Rgb .byte) LIFT = some MODE_640x480_RGB) ∧
    (MODE_640x480_MONO ≠ MODE_640x480_YUV411 ∧
      MODE_640x480_MONO ≠ MODE_640x480_RGB ∧
      MODE_640x480_YUV411 ≠ MODE_640x480_RGB) ∧
    (∀ (C : CType) (LIFT LIFT' : Int), DC.cam_type.mode C LIFT = DC.cam_type.mode C LIFT') ∧
    (∀ (C : CType) (LIFT : Int) (m m' : Int),
      DC.cam_type.mode C LIFT = some m → DC.cam_type.mode C LIFT = some m' → m = m') ∧
    (∀ (C D : CType) (LIFT LIFT' : Int) (m : Int),
      DC.cam_type.mode C LIFT = some m → DC.cam_type.mode D LIFT' = some m → C = D) ∧
    (∀ (C : CType) (LIFT : Int),
      (DC.cam_type.mode C LIFT).isSome = true ↔ C = .byte ∨ C = .yuv411 ∨ C = .Rgb .byte) := by
  refine ⟨fun _ => ⟨rfl, rfl, rfl⟩, by decide, fun _ _ _ => rfl, ?_, ?_, ?_⟩
  · intro C LIFT m m' h h'
    rw [h] at h'
    exact Option.some.inj h'
  · intro C D LIFT LIFT' m hC hD
    unfold DC.cam_type.mode at hC hD
    split at hC <;> split at hD <;> first
      | rfl
      | (exfalso; simp only [reduceCtorEq] at hC hD)
      | (exfalso
         have e := (Option.some.inj hC).trans (Option.some.inj hD).symm
         revert e
         decide)
  · intro C LIFT
    unfold DC.cam_type.mode
    split <;> simp_all

/-- C4: the default frame rate of `byte` and of `yuv411` is 30 (for every
`LIFT`), and `DVBuffer`, that is `DVBuffer2<byte>`, constructed with the defaults
asks for `MODE_640x480_MONO` at 30 frames per second. -/
theorem cam_type_byte_yuv411_fps_is_30 (LIFT cam_no num_dma_buffers : Int) :
    DC.cam_type.fps .byte LIFT = 30 ∧
    DC.cam_type.fps .yuv411 LIFT = 30 ∧
    DVBuffer.ctor = DVBuffer2.ctor .byte ∧
    DVBuffer.ctor (.args2 cam_no num_dma_buffers) =
      some ⟨cam_no, num_dma_buffers, -1, -1, MODE_640x480_MONO, 30⟩ :=
  ⟨rfl, rfl, rfl, rfl⟩

/-- C5: for a pixel type `T` with a capture mode `mode`, constructing
`DVBuffer2<T>` calls the `RawDCVideo` constructor with the camera number, the
number of DMA buffers, the brightness and the exposure unchanged, with `mode`, and
with the frame rate given; a brightness or exposure left out is passed as -1, a
frame rate left out is passed as `cam_type<T>::fps`. -/
theorem DVBuffer2_ctor_forwards (T : CType) (mode : Int)
    (hT : DC.cam_type.mode T 0 = some mode)
    (cam_no num_dma_buffers bright exposure : Int) (fps : Double) :
    DVBuffer2.ctor T (.args5 cam_no num_dma_buffers bright exposure fps) =
      some ⟨cam_no, num_dma_buffers, bright, exposure, mode, fps⟩ ∧
    DVBuffer2.ctor T (.args4 cam_no num_dma_buffers bright exposure) =
      some ⟨cam_no, num_dma_buffers, bright, exposure, mode, DC.cam_type.fps T 0⟩ ∧
    DVBuffer2.ctor T (.args3 cam_no num_dma_buffers bright) =
      some ⟨cam_no, num_dma_buffers, bright, -1, mode, DC.cam_type.fps T 0⟩ ∧
    DVBuffer2.ctor T (.args2 cam_no num_dma_buffers) =
      some ⟨cam_no, num_dma_buffers, -1, -1, mode, DC.cam_type.fps T 0⟩ := by
  simp only [DVBuffer2.ctor, DVBuffer2.ctor5, hT, and_self]

/-- C5 at `T = yuv411`, camera 1, 4 buffers, brightness 200, exposure 300 and an
explicit frame rate of 15. -/
theorem DVBuffer2_ctor_forwards_witness :
    DC.cam_type.mode .yuv411 0 = some 66 ∧
    DVBuffer2.ctor .yuv411 (.args5 1 4 200 300 15) = some ⟨1, 4, 200, 300, 66, 15⟩ ∧
    DVBuffer2.ctor .yuv411 (.args2 1 4) = some ⟨1, 4, -1, -1, 66, 30⟩ :=
  have h := DVBuffer2_ctor_forwards .yuv411 66 rfl 1 4 200 300 15
  ⟨rfl, h.1, h.2.2.2⟩

/-! ## The typed adapter -/

/-- C7: for every implementation of the raw operations and every state: the
typed `get_frame` blocks, throws and changes the state exactly as the raw
`get_frame` does and returns the raw handle at pixel type `T`; that handle has
the session, data pointer, timestamp and buffer of the raw one; casting to `T`
and back (or to `byte` and back) gives the handle one started from; and the typed
`put_frame` of the typed handle is the raw `put_frame` of the raw handle. -/
theorem DVBuffer2_get_put_zero_copy {ε σ : Type} (T : CType)
    (RawDCVideo_get_frame : Call ε σ (VideoFramePtr .byte))
    (RawDCVideo_put_frame : VideoFramePtr .byte → Call ε σ Unit) (s : σ) :
    DVBuffer2.get_frame T RawDCVideo_get_frame s =
      (RawDCVideo_get_frame s).map (fun r => (r.1.map (reinterpret_cast T), r.2)) ∧
    (DVBuffer2.get_frame T RawDCVideo_get_frame s).map
        (fun r => (r.1.map (reinterpret_cast .byte), r.2)) = RawDCVideo_get_frame s ∧
    (∀ f : VideoFramePtr .byte,
      (reinterpret_cast T f).session = f.session ∧
      (reinterpret_cast T f).frame = f.frame ∧
      reinterpret_cast .byte (reinterpret_cast T f) = f) ∧
    (∀ g : VideoFramePtr T, reinterpret_cast T (reinterpret_cast .byte g) = g) ∧
    (∀ (f : VideoFramePtr .byte) (t : σ),
      DVBuffer2.put_frame T RawDCVideo_put_frame (reinterpret_cast T f) t =
        RawDCVideo_put_frame f t) ∧
    (∀ (f : VideoFramePtr .byte) (s' : σ), RawDCVideo_get_frame s = some (.ok f, s') →
      ∃ g : VideoFramePtr T,
        DVBuffer2.get_frame T RawDCVideo_get_frame s = some (.ok g, s') ∧
        g.session = f.session ∧ g.frame = f.frame ∧
        DVBuffer2.put_frame T RawDCVideo_put_frame g s' = RawDCVideo_put_frame f s') := by
  have hget : DVBuffer2.get_frame T RawDCVideo_get_frame s =
      (RawDCVideo_get_frame s).map (fun r => (r.1.map (reinterpret_cast T), r.2)) := by
    unfold DVBuffer2.get_frame
    rcases RawDCVideo_get_frame s with _ | ⟨⟨_ | _, _⟩⟩ <;> rfl
  refine ⟨hget, ?_, fun f => ⟨rfl, rfl, rfl⟩, fun g => rfl, fun f t => rfl, ?_⟩
  · rw [hget]
    rcases RawDCVideo_get_frame s with _ | ⟨⟨_ | _, _⟩⟩ <;> rfl
  · intro f s' h
    refine ⟨reinterpret_cast T f, ?_, rfl, rfl, rfl⟩
    rw [hget, h]
    rfl

/-- C8: `seek_to(t)` returns normally and leaves the state of the object as it
was, for every state and every `t`, among them a negative time, the infinities
and NaN; in particular the frame sequence and both cursors of a `RawDCVideo` are
unchanged. -/
theorem DVBuffer2_seek_to_noop {ε σ : Type} (T : CType) :
    (∀ (t : Double) (s : σ), DVBuffer2.seek_to T t s = (some (.ok (), s) : Option (Except ε Unit × σ))) ∧
    (∀ s : σ,
      DVBuffer2.seek_to T (.finite (-1)) s = (some (.ok (), s) : Option (Except ε Unit × σ)) ∧
      DVBuffer2.seek_to T .pos_inf s = (some (.ok (), s) : Option (Except ε Unit × σ)) ∧
      DVBuffer2.seek_to T .neg_inf s = (some (.ok (), s) : Option (Except ε Unit × σ)) ∧
      DVBuffer2.seek_to T .nan s = (some (.ok (), s) : Option (Except ε Unit × σ))) ∧
    (∀ (t : Double) (v : RawDCVideo),
      ∃ v' : RawDCVideo,
        DVBuffer2.seek_to T t v = (some (.ok (), v') : Option (Except ε Unit × RawDCVideo)) ∧
        v' = v ∧
        v'.my_frame_sequence = v.my_frame_sequence ∧
        v'.my_next_frame = v.my_next_frame ∧
        v'.my_last_in_sequence = v.my_last_in_sequence) :=
  ⟨fun _ _ => rfl, fun _ => ⟨rfl, rfl, rfl, rfl⟩, fun _ v => ⟨v, rfl, rfl, rfl, rfl, rfl⟩⟩

/-- C10: for every pixel type, every implementation of the raw queries and every
state, the typed `size()`, `frame_rate()` and `frame_pending()` give the outcome
of the raw `size()`, `frame_rate()` and `frame_pending()`: the same value (or
exception) and the same state afterwards. -/
theorem DVBuffer2_queries_delegate {ε σ : Type} (T : CType)
    (RawDCVideo_size : Call ε σ ImageRef) (RawDCVideo_frame_rate : Call ε σ Double)
    (RawDCVideo_frame_pending : Call ε σ Bool) (s : σ) :
    DVBuffer2.size T RawDCVideo_size s = RawDCVideo_size s ∧
    DVBuffer2.frame_rate T RawDCVideo_frame_rate s = RawDCVideo_frame_rate s ∧
    DVBuffer2.frame_pending T RawDCVideo_frame_pending s = RawDCVideo_frame_pending s :=
  ⟨rfl, rfl, rfl⟩

/-! ## The reference implementation: invariants of an execution -/

theorem double_lt_trans {a b c : Double} (hab : a.lt b = true) (hbc : b.lt c = true) :
    a.lt c = true := by
  cases a <;> cases b <;> cases c <;> simp_all [Double.lt]
  exact lt_trans hab hbc

theorem dma_fill_eq_some {slot : Nat} {ts : Double} {s s' : CaptureSession}
    {fr' : DC.raw_frame} (h : dma_fill slot ts s = some (fr', s')) :
    ∃ fr, s.slots[slot]? = some fr ∧ slot ∉ s.checked_out ∧
      slot ∉ s.video.my_frame_sequence.drop s.video.my_next_frame ∧
      (∀ c, s.last_capture = some c → c.lt ts = true) ∧
      fr' = { fr with timestamp := ts } ∧
      s' = { s with
        video := { s.video with my_frame_sequence := s.video.my_frame_sequence ++ [slot] }
        slots := s.slots.set slot { fr with timestamp := ts }
        last_capture := some ts } := by
  unfold dma_fill at h
  split at h
  · exact absurd h (by simp)
  · rename_i fr hfr
    split at h
    · exact absurd h (by simp)
    · rename_i hfree
      split at h
      · rename_i hclock
        simp only [Option.some.injEq, Prod.mk.injEq] at h
        refine ⟨fr, hfr, fun hc => hfree (Or.inl hc), fun hp => hfree (Or.inr hp), ?_, h.1.symm,
          h.2.symm⟩
        intro c hc
        rw [hc] at hclock
        exact hclock
      · exact absurd h (by simp)

theorem get_frame_eq_some {s s' : CaptureSession} {r : Except Error (VideoFramePtr .byte)}
    (h : RawDCVideo.get_frame s = some (r, s')) :
    ∃ b fr, s.video.my_frame_sequence[s.video.my_next_frame]? = some b ∧
      s.slots[b]? = some fr ∧ r = .ok ⟨s.self, fr⟩ ∧
      s' = { s with
        video := { s.video with my_next_frame := s.video.my_next_frame + 1 }
        checked_out := b :: s.checked_out } := by
  unfold RawDCVideo.get_frame at h
  split at h
  · exact absurd h (by simp)
  · rename_i b hb
    split at h
    · exact absurd h (by simp)
    · rename_i fr hfr
      simp only [Option.some.injEq, Prod.mk.injEq] at h
      exact ⟨b, fr, hb, hfr, h.1.symm, h.2.symm⟩

theorem is_checked_out_iff (s : CaptureSession) (f : VideoFramePtr .byte) :
    RawDCVideo.is_checked_out s f = true ↔
      f.session = s.self ∧ f.frame.buffer ∈ s.checked_out ∧
        s.slots[f.frame.buffer]? = some f.frame := by
  simp [RawDCVideo.is_checked_out, and_assoc]

theorem inv_dma_fill {h : History} (inv : h.Inv) {slot : Nat} {ts : Double}
    {fr' : DC.raw_frame} {s' : CaptureSession}
    (hf : dma_fill slot ts h.session = some (fr', s')) :
    History.Inv { h with session := s', captured := h.captured ++ [⟨s'.self, fr'⟩] } := by
  obtain ⟨fr, hfr, hco, hpend, hclock, rfl, rfl⟩ := dma_fill_eq_some hf
  have hlt : slot < h.session.slots.length := (List.getElem?_eq_some.mp hfr).1
  have hbuf : fr.buffer = slot := inv.slot_index slot fr hfr
  refine
    { next_le := ?_, next_eq := inv.next_eq, queue := ?_, seq_eq := ?_, slot_index := ?_,
      increasing := ?_, clock := ?_, held_iff := ?_ }
  · have := inv.next_le
    simp only [List.length_append, List.length_singleton]
    omega
  · show h.captured ++ [_] = h.delivered ++ CaptureSession.pending _
    unfold CaptureSession.pending
    dsimp only
    rw [List.drop_append_of_le_length inv.next_le, List.filterMap_append, ← List.append_assoc]
    have hold : List.filterMap
        (fun b => ((h.session.slots.set slot { fr with timestamp := ts })[b]?).map
          (fun fr => (⟨h.session.self, fr⟩ : VideoFramePtr .byte)))
        (h.session.video.my_frame_sequence.drop h.session.video.my_next_frame) =
        h.session.pending := by
      unfold CaptureSession.pending
      apply List.filterMap_congr
      intro b hb
      have hne : slot ≠ b := fun e => hpend (e ▸ hb)
      rw [List.getElem?_set_ne hne]
    rw [hold, ← inv.queue]
    simp [List.getElem?_set_self hlt]
  · simp only [List.map_append, List.map_cons, List.map_nil, inv.seq_eq, hbuf]
  · intro i x hx
    dsimp only at hx
    rw [List.getElem?_set] at hx
    by_cases e : slot = i
    · simp only [e, if_true] at hx
      split at hx
      · cases hx
        exact e ▸ hbuf
      · cases hx
    · simp only [e, if_false] at hx
      exact inv.slot_index i x hx
  · show List.Pairwise _ (h.captured ++ [_])
    rw [List.pairwise_append]
    refine ⟨inv.increasing, List.pairwise_singleton _ _, ?_⟩
    intro a ha b hb
    simp only [List.mem_singleton] at hb
    subst hb
    obtain ⟨c, hc, hac⟩ := inv.clock a ha
    have hct := hclock c hc
    rcases hac with e | l
    · rw [e]
      exact hct
    · exact double_lt_trans l hct
  · intro f hf
    refine ⟨ts, rfl, ?_⟩
    rcases List.mem_append.mp hf with ha | hb
    · obtain ⟨c, hc, hac⟩ := inv.clock f ha
      have hct := hclock c hc
      rcases hac with e | l
      · right
        rw [e]
        exact hct
      · right
        exact double_lt_trans l hct
    · simp only [List.mem_singleton] at hb
      subst hb
      left
      rfl
  · intro f
    rw [inv.held_iff f, is_checked_out_iff, is_checked_out_iff]
    dsimp only
    constructor
    · rintro ⟨h1, h2, h3⟩
      refine ⟨h1, h2, ?_⟩
      have hne : slot ≠ f.frame.buffer := fun e => hco (e ▸ h2)
      rw [List.getElem?_set_ne hne]
      exact h3
    · rintro ⟨h1, h2, h3⟩
      refine ⟨h1, h2, ?_⟩
      have hne : slot ≠ f.frame.buffer := fun e => hco (e ▸ h2)
      rw [List.getElem?_set_ne hne] at h3
      exact h3

theorem inv_get_frame {h : History} (inv : h.Inv) {f : VideoFramePtr .byte}
    {s' : CaptureSession} (hg : RawDCVideo.get_frame h.session = some (.ok f, s')) :
    History.Inv { h with session := s', delivered := h.delivered ++ [f], held := f :: h.held } := by
  obtain ⟨b, fr, hb, hfr, hr, rfl⟩ := get_frame_eq_some hg
  have hf : f = ⟨h.session.self, fr⟩ := Except.ok.inj hr
  subst hf
  have hlt : h.session.video.my_next_frame < h.session.video.my_frame_sequence.length :=
    (List.getElem?_eq_some.mp hb).1
  have hbuf : fr.buffer = b := inv.slot_index b fr hfr
  refine
    { next_le := hlt, next_eq := ?_, queue := ?_, seq_eq := inv.seq_eq,
      slot_index := inv.slot_index, increasing := inv.increasing, clock := inv.clock,
      held_iff := ?_ }
  · have := inv.next_eq
    simp only [List.length_append, List.length_singleton]
    omega
  · show h.captured = (h.delivered ++ [_]) ++ CaptureSession.pending _
    have hp : h.session.pending =
        (⟨h.session.self, fr⟩ : VideoFramePtr .byte) ::
          CaptureSession.pending { h.session with
            video := { h.session.video with my_next_frame := h.session.video.my_next_frame + 1 }
            checked_out := b :: h.session.checked_out } := by
      unfold CaptureSession.pending
      dsimp only
      rw [List.drop_eq_getElem_cons hlt]
      have hb' : h.session.video.my_frame_sequence[h.session.video.my_next_frame] = b :=
        (List.getElem?_eq_some.mp hb).2
      rw [hb', List.filterMap_cons, hfr]
      rfl
    rw [inv.queue, hp]
    simp
  · intro g
    rw [is_checked_out_iff]
    dsimp only
    rw [List.mem_cons, inv.held_iff g, is_checked_out_iff, List.mem_cons]
    constructor
    · rintro (e | ⟨h1, h2, h3⟩)
      · subst e
        exact ⟨rfl, Or.inl hbuf, by rw [hbuf]; exact hfr⟩
      · exact ⟨h1, Or.inr h2, h3⟩
    · rintro ⟨h1, h2 | h2, h3⟩
      · left
        rw [h2, hfr] at h3
        cases g with
        | mk gs gf =>
          simp only at h1 h3
          rw [h1, Option.some.inj h3]
      · exact Or.inr ⟨h1, h2, h3⟩

theorem put_frame_ok {s s' : CaptureSession} {f : VideoFramePtr .byte} {u : Unit}
    (hp : RawDCVideo.put_frame f s = some (.ok u, s')) :
    RawDCVideo.is_checked_out s f = true ∧
    s' = { s with
      video := { s.video with
        my_last_in_sequence := RawDCVideo.oldest_unreturned s.video
          (s.checked_out.filter (fun b => b != f.frame.buffer)) }
      checked_out := s.checked_out.filter (fun b => b != f.frame.buffer) } := by
  unfold RawDCVideo.put_frame at hp
  split at hp
  · rename_i hc
    simp only [Option.some.injEq, Prod.mk.injEq] at hp
    exact ⟨hc, hp.2.symm⟩
  · simp at hp

theorem put_frame_error {s s' : CaptureSession} {f : VideoFramePtr .byte} {e : Error}
    (hp : RawDCVideo.put_frame f s = some (.error e, s')) :
    RawDCVideo.is_checked_out s f = false ∧ e = .UsageError ∧ s' = s := by
  unfold RawDCVideo.put_frame at hp
  split at hp
  · simp at hp
  · rename_i hc
    simp only [Option.some.injEq, Prod.mk.injEq, Except.error.injEq] at hp
    exact ⟨by simpa using hc, hp.1.symm, hp.2.symm⟩

theorem inv_put_frame {h : History} (inv : h.Inv) {f : VideoFramePtr .byte} {u : Unit}
    {s' : CaptureSession} (hp : RawDCVideo.put_frame f h.session = some (.ok u, s')) :
    History.Inv { h with session := s', held := h.held.filter (fun g => g != f) } := by
  obtain ⟨hc, rfl⟩ := put_frame_ok hp
  rw [is_checked_out_iff] at hc
  refine
    { next_le := inv.next_le, next_eq := inv.next_eq, queue := inv.queue, seq_eq := inv.seq_eq,
      slot_index := inv.slot_index, increasing := inv.increasing, clock := inv.clock,
      held_iff := ?_ }
  intro g
  rw [is_checked_out_iff]
  dsimp only
  rw [List.mem_filter, inv.held_iff g, is_checked_out_iff, List.mem_filter]
  simp only [bne_iff_ne, ne_eq]
  constructor
  · rintro ⟨⟨h1, h2, h3⟩, hne⟩
    refine ⟨h1, ⟨h2, ?_⟩, h3⟩
    intro e
    apply hne
    rw [e, hc.2.2] at h3
    cases g with
    | mk gs gf =>
      cases f with
      | mk fs ff =>
        simp only at h1 h3 hc
        rw [h1, ← hc.1, Option.some.inj h3]
  · rintro ⟨h1, ⟨h2, hne⟩, h3⟩
    refine ⟨⟨h1, h2, h3⟩, ?_⟩
    intro e
    exact hne (by rw [e])

theorem inv_step {h h' : History} (inv : h.Inv) {e : Event} (hs : h.step e = some h') :
    h'.Inv := by
  cases e with
  | dma_fill slot ts =>
    simp only [History.step] at hs
    split at hs
    · simp at hs
    · rename_i fr s' hf
      cases hs
      exact inv_dma_fill inv hf
  | get_frame =>
    simp only [History.step] at hs
    split at hs
    · rename_i f s' hg
      cases hs
      exact inv_get_frame inv hg
    · simp at hs
  | put_frame f =>
    simp only [History.step] at hs
    split at hs
    · rename_i u s' hp
      cases hs
      exact inv_put_frame inv hp
    · rename_i e s' hp
      cases hs
      obtain ⟨_, _, rfl⟩ := put_frame_error hp
      exact inv
    · simp at hs

theorem inv_run {es : List Event} {h h' : History} (inv : h.Inv) (hr : h.run es = some h') :
    h'.Inv := by
  induction es generalizing h with
  | nil =>
    simp only [History.run] at hr
    cases hr
    exact inv
  | cons e es ih =>
    simp only [History.run] at hr
    split at hr
    · simp at hr
    · rename_i h1 hs
      exact ih (inv_step inv hs) hr

theorem ctor_ok {self : Nat} {device : RawDCVideoCall → Option Negotiated}
    {call : RawDCVideoCall} {s : CaptureSession}
    (hc : RawDCVideo.ctor self device call = .ok s) :
    ∃ d, device call = some d ∧
      s.video.my_frame_sequence = [] ∧ s.video.my_next_frame = 0 ∧
      s.video.my_last_in_sequence = 0 ∧ s.checked_out = [] ∧ s.last_capture = none ∧
      s.self = self ∧ s.video.my_handle = d.handle ∧ s.video.my_node = d.node ∧
      s.video.my_size = d.size ∧ s.video.true_fps = d.true_fps ∧
      s.video.my_num_buffers = call.num_dma_buffers.toNat ∧
      s.slots.length = call.num_dma_buffers.toNat ∧
      (∀ (i : Nat) (fr : DC.raw_frame), s.slots[i]? = some fr → fr.buffer = i) := by
  unfold RawDCVideo.ctor at hc
  split at hc
  · cases hc
  · rename_i d hd
    cases hc
    refine ⟨d, hd, rfl, rfl, rfl, rfl, rfl, rfl, rfl, rfl, rfl, rfl, rfl, by simp, ?_⟩
    intro i fr hfr
    simp only [List.getElem?_map, Option.map_eq_some'] at hfr
    obtain ⟨j, hj, rfl⟩ := hfr
    have hj' := List.getElem?_eq_some.mp hj
    obtain ⟨hlt, hj2⟩ := hj'
    simp only [List.getElem_range] at hj2
    exact hj2.symm

theorem inv_start {self : Nat} {device : RawDCVideoCall → Option Negotiated}
    {call : RawDCVideoCall} {s : CaptureSession}
    (hc : RawDCVideo.ctor self device call = .ok s) : (History.start s).Inv := by
  obtain ⟨d, _, hseq, hnext, _, hco, _, _, _, _, _, _, _, _, hidx⟩ := ctor_ok hc
  refine
    { next_le := by simp [History.start, hnext], next_eq := by simp [History.start, hnext],
      queue := ?_, seq_eq := by simp [History.start, hseq], slot_index := hidx,
      increasing := List.Pairwise.nil, clock := ?_, held_iff := ?_ }
  · simp [History.start, CaptureSession.pending, hseq]
  · intro f hf
    simp [History.start] at hf
  · intro f
    simp [History.start, is_checked_out_iff, hco]

theorem step_keeps {h h' : History} {e : Event} (inv : h.Inv) (hs : h.step e = some h') :
    h'.session.video.my_handle = h.session.video.my_handle ∧
    h'.session.video.my_node = h.session.video.my_node ∧
    h'.session.video.my_size = h.session.video.my_size ∧
    h'.session.video.true_fps = h.session.video.true_fps ∧
    h'.captured.map (fun f => (f.frame.buffer, f.frame.timestamp)) =
      h.captured.map (fun f => (f.frame.buffer, f.frame.timestamp)) ++ e.fill?.toList := by
  cases e with
  | dma_fill slot ts =>
    simp only [History.step] at hs
    split at hs
    · simp at hs
    · rename_i fr s' hf
      cases hs
      obtain ⟨fr0, hfr, _, _, _, rfl, rfl⟩ := dma_fill_eq_some hf
      have hbuf : fr0.buffer = slot := inv.slot_index slot fr0 hfr
      simp [Event.fill?, hbuf]
  | get_frame =>
    simp only [History.step] at hs
    split at hs
    · rename_i f s' hg
      cases hs
      obtain ⟨b, fr, _, _, _, rfl⟩ := get_frame_eq_some hg
      simp [Event.fill?]
    · simp at hs
  | put_frame f =>
    simp only [History.step] at hs
    split at hs
    · rename_i u s' hp
      cases hs
      obtain ⟨_, rfl⟩ := put_frame_ok hp
      simp [Event.fill?]
    · rename_i e s' hp
      cases hs
      obtain ⟨_, _, rfl⟩ := put_frame_error hp
      simp [Event.fill?]
    · simp at hs

theorem run_keeps {es : List Event} {h h' : History} (inv : h.Inv)
    (hr : h.run es = some h') :
    h'.session.video.my_handle = h.session.video.my_handle ∧
    h'.session.video.my_node = h.session.video.my_node ∧
    h'.session.video.my_size = h.session.video.my_size ∧
    h'.session.video.true_fps = h.session.video.true_fps ∧
    h'.captured.map (fun f => (f.frame.buffer, f.frame.timestamp)) =
      h.captured.map (fun f => (f.frame.buffer, f.frame.timestamp)) ++
        es.filterMap Event.fill? := by
  induction es generalizing h with
  | nil =>
    simp only [History.run] at hr
    cases hr
    simp
  | cons e es ih =>
    simp only [History.run] at hr
    split at hr
    · simp at hr
    · rename_i h1 hs
      obtain ⟨a1, a2, a3, a4, a5⟩ := step_keeps inv hs
      obtain ⟨b1, b2, b3, b4, b5⟩ := ih (inv_step inv hs) hr
      refine ⟨b1.trans a1, b2.trans a2, b3.trans a3, b4.trans a4, ?_⟩
      rw [b5, a5, List.append_assoc]
      congr 1
      cases hfe : e.fill? <;> simp [List.filterMap_cons, hfe]

/-! ## The reference implementation: the claims -/

/-- C2: in every execution of a freshly constructed session (DMA fills in any
physical slot order, `get_frame` and `put_frame` calls in any interleaving),
`get_frame` hands out the captured frames in capture order: the frames delivered
are the first `my_next_frame` frames captured, their slots are the first
`my_next_frame` entries of `my_frame_sequence`, the captured frames are those the
hardware filled, in the order of the fills, and the timestamps of the frames
delivered are strictly increasing. -/
theorem get_frame_delivers_in_capture_order (self : Nat)
    (device : RawDCVideoCall → Option Negotiated) (call : RawDCVideoCall)
    (s : CaptureSession) (trace : List Event) (h : History)
    (hc : RawDCVideo.ctor self device call = .ok s)
    (hr : (History.start s).run trace = some h) :
    h.captured.map (fun f => (f.frame.buffer, f.frame.timestamp)) =
      trace.filterMap Event.fill? ∧
    h.session.video.my_frame_sequence = (trace.filterMap Event.fill?).map Prod.fst ∧
    h.session.video.my_next_frame = h.delivered.length ∧
    h.delivered = h.captured.take h.session.video.my_next_frame ∧
    h.delivered.map (fun f => f.frame.buffer) =
      h.session.video.my_frame_sequence.take h.session.video.my_next_frame ∧
    h.captured = h.delivered ++ h.session.pending ∧
    (h.delivered.map (fun f => f.frame.timestamp)).Pairwise (fun a b => a.lt b = true) := by
  have inv0 := inv_start hc
  have inv := inv_run inv0 hr
  have hk := (run_keeps inv0 hr).2.2.2.2
  simp only [History.start, List.map_nil, List.nil_append] at hk
  have htake : h.delivered = h.captured.take h.session.video.my_next_frame := by
    rw [inv.next_eq]
    conv_rhs => rw [inv.queue]
    rw [List.take_left]
  refine ⟨hk, ?_, inv.next_eq, htake, ?_, inv.queue, ?_⟩
  · rw [← inv.seq_eq, ← hk, List.map_map]
    rfl
  · rw [← inv.seq_eq, ← List.map_take, ← htake]
  · rw [List.pairwise_map]
    have hsub : h.delivered.Sublist h.captured := by
      rw [inv.queue]
      exact List.sublist_append_left _ _
    exact inv.increasing.sublist hsub

/-- C2 on `Example.trace`: the hardware fills the slots 2, 0, 1, 2 and the four
frames are delivered in that order, with the timestamps 1, 2, 3, 4. -/
theorem get_frame_delivers_in_capture_order_witness :
    (History.start Example.session).run Example.trace = some Example.final ∧
    Example.final.delivered.map (fun f => f.frame.buffer) = [2, 0, 1, 2] ∧
    Example.final.delivered.map (fun f => f.frame.timestamp) = [1, 2, 3, 4] ∧
    (Example.final.delivered.map (fun f => f.frame.timestamp)).Pairwise
      (fun a b => a.lt b = true) :=
  ⟨by decide, by decide, by decide,
    (get_frame_delivers_in_capture_order 1 Example.device ⟨0, 3, -1, -1, 69, 30⟩
      Example.session Example.trace Example.final rfl (by decide)).2.2.2.2.2.2⟩

theorem put_frame_of_not_checked_out {s : CaptureSession} {f : VideoFramePtr .byte}
    (hf : RawDCVideo.is_checked_out s f = false) :
    RawDCVideo.put_frame f s = some (.error .UsageError, s) := by
  simp [RawDCVideo.put_frame, hf]

theorem not_checked_out_after_put {s s' : CaptureSession} {f : VideoFramePtr .byte} {u : Unit}
    (hp : RawDCVideo.put_frame f s = some (.ok u, s')) :
    RawDCVideo.is_checked_out s' f = false := by
  obtain ⟨_, rfl⟩ := put_frame_ok hp
  rw [Bool.eq_false_iff]
  intro hc
  rw [is_checked_out_iff] at hc
  have hm := hc.2.1
  simp [List.mem_filter] at hm

/-- C6: after every execution of a freshly constructed session, `put_frame` with a
handle that is not held (not among the handles `get_frame` has returned and that
have not been released since) throws `UsageError` and leaves the session, with its
frame sequence, cursors and checked-out set, exactly as it was.  A handle of
another session is never held, so it is refused; a handle that has just been
released is refused the second time; and a handle that is held is accepted. -/
theorem put_frame_rejects_unheld_handle (self : Nat)
    (device : RawDCVideoCall → Option Negotiated) (call : RawDCVideoCall)
    (s : CaptureSession) (trace : List Event) (h : History) (f : VideoFramePtr .byte)
    (hc : RawDCVideo.ctor self device call = .ok s)
    (hr : (History.start s).run trace = some h)
    (hf : f ∉ h.held) :
    RawDCVideo.put_frame f h.session = some (.error .UsageError, h.session) ∧
    (∀ g : VideoFramePtr .byte, g.session ≠ h.session.self →
      g ∉ h.held ∧
      RawDCVideo.put_frame g h.session = some (.error .UsageError, h.session)) ∧
    (∀ (g : VideoFramePtr .byte) (s' : CaptureSession),
      RawDCVideo.put_frame g h.session = some (.ok (), s') →
      g ∈ h.held ∧ RawDCVideo.put_frame g s' = some (.error .UsageError, s')) ∧
    (∀ g ∈ h.held, ∃ s' : CaptureSession,
      RawDCVideo.put_frame g h.session = some (.ok (), s')) := by
  have inv := inv_run (inv_start hc) hr
  have key : ∀ g : VideoFramePtr .byte, g ∉ h.held →
      RawDCVideo.put_frame g h.session = some (.error .UsageError, h.session) := by
    intro g hg
    apply put_frame_of_not_checked_out
    rw [Bool.eq_false_iff]
    exact fun hco => hg ((inv.held_iff g).mpr hco)
  have foreign : ∀ g : VideoFramePtr .byte, g.session ≠ h.session.self → g ∉ h.held := by
    intro g hg hmem
    have hco := (inv.held_iff g).mp hmem
    rw [is_checked_out_iff] at hco
    exact hg hco.1
  refine ⟨key f hf, fun g hg => ⟨foreign g hg, key g (foreign g hg)⟩, ?_, ?_⟩
  · intro g s' hp
    refine ⟨(inv.held_iff g).mpr (put_frame_ok hp).1, ?_⟩
    exact put_frame_of_not_checked_out (not_checked_out_after_put hp)
  · intro g hg
    have hco := (inv.held_iff g).mp hg
    unfold RawDCVideo.put_frame
    rw [if_pos hco]
    exact ⟨_, rfl⟩

/-- C6 on `Example.trace`: the first frame was delivered and released, so its
handle is not held at the end, and releasing it again throws `UsageError` and
leaves the session as it was. -/
theorem put_frame_rejects_unheld_handle_witness :
    Example.first_frame ∈ Example.final.delivered ∧
    Example.first_frame ∉ Example.final.held ∧
    RawDCVideo.put_frame Example.first_frame Example.final.session =
      some (.error .UsageError, Example.final.session) :=
  ⟨by decide, by decide,
    (put_frame_rejects_unheld_handle 1 Example.device ⟨0, 3, -1, -1, 69, 30⟩
      Example.session Example.trace Example.final Example.first_frame rfl (by decide)
      (by decide)).1⟩

end CVD
